import Mathlib

/-!
Verification of the open-lotto client SDK and of the on-chain round
scheduler it talks to.

The TypeScript sources embedded here are:
- src/frontend/packages/sdk/src/index.ts   (OpenLottoClient: account parsers,
  fetchers, randomness-status classification, instruction builders)
- src/frontend/packages/utils/src/index.ts (PDA derivation)
- the @open-lotto/types module (getPotStatus, DISCRIMINATORS, SEEDS)

Byte buffers are lists of naturals (each entry a byte value); BN values
decoded from byte slices are nonnegative, so they are embedded as Nat.
JavaScript strings are represented by their UTF-8 byte lists.
Public keys are embedded by their numeric value (the big-endian
interpretation of their 32 bytes); PublicKey.default is the value 0.

The on-chain Anchor program (programs/open-lotto) is not part of the
sources; the spec describes its operations (Init, AdvanceRound, Enter,
DrawLottery, SettleLottery).  Those operations are modelled from the
spec, each in a definition whose doc comment says so explicitly.
-/

set_option maxRecDepth 16000

namespace OpenLotto

/-- Little-endian interpretation of a byte list, as new BN(buf, "le") does
for the nonnegative values produced by the parsers. -/
def leNat : List Nat → Nat
  | [] => 0
  | b :: rest => b + 256 * leNat rest

/-- Big-endian interpretation of a byte list, as new BN(buf) does. -/
def beNat (l : List Nat) : Nat := leNat l.reverse

/-- Little-endian byte encoding of a value on a fixed number of bytes,
as BN.toArrayLike(Buffer, "le", n) / Buffer.writeUInt32LE produce. -/
def leBytes : Nat → Nat → List Nat
  | 0, _ => []
  | n + 1, v => v % 256 :: leBytes n (v / 256)

/-- JavaScript Buffer.slice(a, b): out-of-range bounds clamp instead of
throwing, so the result is the portion of the buffer between a and b. -/
def jsSlice (data : List Nat) (a b : Nat) : List Nat :=
  (data.drop a).take (b - a)

/-- The web3.js PublicKey constructor applied to a byte buffer: it builds
the big-endian BN of the bytes and throws only when that value needs more
than 32 bytes.  Short buffers are accepted (zero-padded value). -/
def mkPublicKey (bytes : List Nat) : Option Nat :=
  if beNat bytes < 256 ^ 32 then some (beNat bytes) else none

/-- Buffer.readUInt32LE(offset): throws unless offset + 4 <= length. -/
def readUInt32LE (data : List Nat) (offset : Nat) : Option Nat :=
  if offset + 4 ≤ data.length then some (leNat (jsSlice data offset (offset + 4)))
  else none

/-- Pot account fields, as parsed by the SDK (types/index.ts plus
parsePotAccount). -/
structure Pot where
  potManager : Nat
  totalParticipants : Nat
  startTimestamp : Nat
  endTimestamp : Nat
  winningSlot : Nat
  randomnessAccount : Nat
  deriving DecidableEq, Repr

/-- Ticket account fields. -/
structure Ticket where
  participant : Nat
  index : Nat
  deriving DecidableEq, Repr

/-- PotManager account fields, as parsed by parsePotManagerAccount.
The name is kept as its UTF-8 byte list. -/
structure PotManager where
  authority : Nat
  treasury : Nat
  tokenMint : Nat
  rent : Nat
  lastRandomNumber : Nat
  timestamps : Nat × Nat
  bump : Nat
  name : List Nat
  deriving DecidableEq, Repr

/-- Derived pot status (types/index.ts, enum PotStatus). -/
inductive PotStatus where
  | Active
  | Drawing
  | Settled
  | Closed
  deriving DecidableEq, Repr

/-- getPotStatus from types/index.ts.  The wall-clock second count read
from Date.now() is the parameter now; hasRandomness compares the
randomness account against PublicKey.default (value 0) and hasWinner
tests winningSlot.toNumber() > 0. -/
def getPotStatus (pot : Pot) (now : Nat) : PotStatus :=
  let endTime := pot.endTimestamp
  let hasRandomness := pot.randomnessAccount ≠ 0
  let hasWinner := pot.winningSlot > 0
  if now < endTime then PotStatus.Active
  else if hasWinner then PotStatus.Settled
  else if hasRandomness then PotStatus.Drawing
  else PotStatus.Closed

/-- Modelled from the spec: the derived-status table of section 3 of the
spec, written independently of the code — Active when now is before the
end timestamp, else Settled when the winning index is set (non-zero),
else Drawing when the randomness-request reference is set (non-null),
else Closed. -/
def specStatusTable (pot : Pot) (now : Nat) : PotStatus :=
  if now < pot.endTimestamp then PotStatus.Active
  else if pot.winningSlot ≠ 0 then PotStatus.Settled
  else if pot.randomnessAccount ≠ 0 then PotStatus.Drawing
  else PotStatus.Closed

/-- Claim C2: for every Pot record and every caller-observed wall-clock
time now, getPotStatus computes exactly the status table of the spec:
Active if now < end timestamp; otherwise Settled if the winning index is
non-zero; otherwise Drawing if the randomness-request reference is
non-null; otherwise Closed. -/
theorem C2_status_table (pot : Pot) (now : Nat) :
    getPotStatus pot now = specStatusTable pot now := by
  unfold getPotStatus specStatusTable
  rcases Nat.eq_zero_or_pos pot.winningSlot with h | h
  · simp [h]
  · simp [h, Nat.pos_iff_ne_zero.mp h]

/-- Account discriminators from types/index.ts: the DISCRIMINATORS table
defines entries for POT and TICKET only. -/
inductive DiscKey where
  | POT
  | TICKET
  | POT_MANAGER
  deriving DecidableEq, Repr

/-- The DISCRIMINATORS table ("as const" object with keys POT and
TICKET).  JavaScript property access on a key the object does not define
yields undefined, embedded as none; there is no POT_MANAGER entry. -/
def DISCRIMINATORS : DiscKey → Option (List Nat)
  | DiscKey.POT => some [238, 118, 60, 175, 178, 191, 59, 58]
  | DiscKey.TICKET => some [41, 228, 24, 165, 78, 90, 235, 200]
  | DiscKey.POT_MANAGER => none

/-- encodeString from the SDK, at the byte level: a 4-byte little-endian
length prefix followed by the raw UTF-8 bytes of the string. -/
def encodeString (strBytes : List Nat) : List Nat :=
  leBytes 4 strBytes.length ++ strBytes

/-- parsePotAccount from the SDK.  It skips the first 8 bytes (the
discriminator) without inspecting them and decodes the fixed fields; the
try/catch returns null exactly when a PublicKey constructor throws. -/
def parsePotAccount (data : List Nat) : Option Pot := do
  let potManager ← mkPublicKey (jsSlice data 8 40)
  let totalParticipants := leNat (jsSlice data 40 48)
  let startTimestamp := leNat (jsSlice data 48 56)
  let endTimestamp := leNat (jsSlice data 56 64)
  let winningSlot := leNat (jsSlice data 64 72)
  let randomnessAccount ← mkPublicKey (jsSlice data 72 104)
  pure { potManager, totalParticipants, startTimestamp, endTimestamp,
         winningSlot, randomnessAccount }

/-- parseTicketAccount from the SDK. -/
def parseTicketAccount (data : List Nat) : Option Ticket := do
  let participant ← mkPublicKey (jsSlice data 8 40)
  let index := leNat (jsSlice data 40 48)
  pure { participant, index }

/-- parsePotManagerAccount from the SDK.  The bump byte is read with a
plain index (undefined out of range, never observed because the
readUInt32LE right after it throws first); the name is a 4-byte
little-endian length prefix at offset 137 followed by that many bytes. -/
def parsePotManagerAccount (data : List Nat) : Option PotManager := do
  let authority ← mkPublicKey (jsSlice data 8 40)
  let treasury ← mkPublicKey (jsSlice data 40 72)
  let tokenMint ← mkPublicKey (jsSlice data 72 104)
  let rent := leNat (jsSlice data 104 112)
  let lastRandomNumber := leNat (jsSlice data 112 120)
  let currentEndTs := leNat (jsSlice data 120 128)
  let nextEndTs := leNat (jsSlice data 128 136)
  let bump := data.getD 136 0
  let nameLen ← readUInt32LE data 137
  let name := jsSlice data 141 (141 + nameLen)
  pure { authority, treasury, tokenMint, rent, lastRandomNumber,
         timestamps := (currentEndTs, nextEndTs), bump, name }

/-- Result type of checkRandomnessStatus (its four string results). -/
inductive RandomnessStatus where
  | notFound
  | initializedState
  | committed
  | revealed
  deriving DecidableEq, Repr

/-- The pure core of checkRandomnessStatus applied to the fetched account
data: below 152 bytes the record counts as initialized; otherwise it is
revealed when the 8-byte little-endian value at offset 144 is non-zero,
else committed when the 8-byte little-endian value at offset 104 is
non-zero, else initialized. -/
def checkRandomnessStatusData (data : List Nat) : RandomnessStatus :=
  if data.length < 144 + 8 then RandomnessStatus.initializedState
  else
    let revealSlot := leNat (jsSlice data 144 (144 + 8))
    if revealSlot ≠ 0 then RandomnessStatus.revealed
    else
      let seedSlot := leNat (jsSlice data 104 (104 + 8))
      if seedSlot ≠ 0 then RandomnessStatus.committed
      else RandomnessStatus.initializedState

/-- checkRandomnessStatus from the SDK; a missing account is notFound. -/
def checkRandomnessStatus (accountData : Option (List Nat)) : RandomnessStatus :=
  match accountData with
  | none => RandomnessStatus.notFound
  | some data => checkRandomnessStatusData data

/-- Ledger addresses.  PDA derivation (PublicKey.findProgramAddressSync
over fixed seed tags) is a collision-resistant one-way function; it is
embedded as a free constructor per seed shape, which makes derivation
deterministic and injective exactly as the codec contract assumes. -/
inductive Addr where
  | managerPDA (authority : Nat) (managerName : List Nat)
  | potPDA (potManager : Addr) (endTimestamp : Nat)
  | ticketPDA (pot : Addr) (index : Nat)
  | treasuryPDA
  | escrowPDA
  | wagerEscrowPDA
  | key (value : Nat)
  deriving DecidableEq, Repr

/-- derivePotManagerPDA from utils: seeds [MANAGER, authority, name]. -/
def derivePotManagerPDA (authority : Nat) (managerName : List Nat) : Addr :=
  Addr.managerPDA authority managerName

/-- derivePotPDA from utils: seeds [POT, potManager, endTimestamp le64]. -/
def derivePotPDA (potManager : Addr) (endTimestamp : Nat) : Addr :=
  Addr.potPDA potManager endTimestamp

/-- deriveTicketPDA from utils: seeds [TICKET, pot, index le64]. -/
def deriveTicketPDA (pot : Addr) (index : Nat) : Addr :=
  Addr.ticketPDA pot index

/-- Accounts visible on the ledger: address to raw data, none when the
account does not exist (getAccountInfo returns null). -/
def ChainAccounts := Addr → Option (List Nat)

/-- getPot from the SDK: null when the account is missing, otherwise the
result of parsePotAccount on its data. -/
def getPot (st : ChainAccounts) (address : Addr) : Option Pot :=
  (st address).bind parsePotAccount

/-- getTicket from the SDK. -/
def getTicket (st : ChainAccounts) (address : Addr) : Option Ticket :=
  (st address).bind parseTicketAccount

/-- getWinningTicket from the SDK: null when the pot is missing or its
winningSlot is zero; otherwise it fetches the ticket at the PDA derived
from the pot address and the winningSlot value. -/
def getWinningTicket (st : ChainAccounts) (pot : Addr) : Option (Ticket × Addr) :=
  match getPot st pot with
  | none => none
  | some potData =>
    if potData.winningSlot = 0 then none
    else
      let ticketAddress := deriveTicketPDA pot potData.winningSlot
      match getTicket st ticketAddress with
      | none => none
      | some ticket => some (ticket, ticketAddress)

/-- JavaScript exceptions that instruction-free SDK reads can surface. -/
inductive JsError where
  | typeError
  deriving DecidableEq, Repr

/-- Buffer.from applied to a possibly-undefined value: undefined throws a
TypeError before anything else runs. -/
def bufferFrom (v : Option (List Nat)) : Except JsError (List Nat) :=
  match v with
  | none => Except.error JsError.typeError
  | some b => Except.ok b

/-- getProgramAccounts with a memcmp filter at offset 0: keeps the
accounts whose first 8 bytes equal the filter bytes. -/
def scanByDiscriminator (accounts : List (Addr × List Nat)) (disc : List Nat) :
    List (Addr × List Nat) :=
  accounts.filter (fun a => jsSlice a.2 0 8 = disc)

/-- getAllPotManagers from the SDK: it first builds the memcmp filter
with Buffer.from(DISCRIMINATORS.POT_MANAGER) and only then fetches and
parses the matching accounts. -/
def getAllPotManagers (accounts : List (Addr × List Nat)) :
    Except JsError (List (PotManager × Addr)) :=
  (bufferFrom (DISCRIMINATORS DiscKey.POT_MANAGER)).bind fun disc =>
    Except.ok (((scanByDiscriminator accounts disc).filterMap
      (fun a => (parsePotManagerAccount a.2).map (fun m => (m, a.1)))))

/-- Bytes below 256 make a little-endian value below 256 to the length. -/
theorem leNat_lt_of_bytes (l : List Nat) (h : ∀ b ∈ l, b < 256) :
    leNat l < 256 ^ l.length := by
  induction l with
  | nil => simp [leNat]
  | cons b rest ih =>
    have hb : b < 256 := h b (List.mem_cons_self b rest)
    have hr : leNat rest < 256 ^ rest.length :=
      ih (fun x hx => h x (List.mem_cons_of_mem b hx))
    have : b + 256 * leNat rest + 1 ≤ 256 * 256 ^ rest.length := by
      calc b + 256 * leNat rest + 1 ≤ 255 + 256 * leNat rest + 1 := by omega
        _ = 256 * (leNat rest + 1) := by ring
        _ ≤ 256 * 256 ^ rest.length := by
              exact Nat.mul_le_mul_left 256 (by omega)
    simpa [leNat, pow_succ, Nat.lt_iff_add_one_le] using by
      calc b + 256 * leNat rest + 1 ≤ 256 * 256 ^ rest.length := this
        _ = 256 ^ rest.length * 256 := by ring

/-- Members of a jsSlice are members of the sliced list. -/
theorem mem_jsSlice (data : List Nat) (a b x : Nat) (h : x ∈ jsSlice data a b) :
    x ∈ data :=
  List.mem_of_mem_drop (List.mem_of_mem_take h)

/-- A jsSlice is never longer than the distance of its bounds. -/
theorem jsSlice_length_le (data : List Nat) (a b : Nat) :
    (jsSlice data a b).length ≤ b - a := by
  simpa [jsSlice] using List.length_take_le (b - a) (data.drop a)

/-- The PublicKey constructor succeeds on every buffer of at most 32
genuine bytes. -/
theorem mkPublicKey_eq_some (bytes : List Nat) (hlen : bytes.length ≤ 32)
    (hb : ∀ b ∈ bytes, b < 256) : mkPublicKey bytes = some (beNat bytes) := by
  have h1 : leNat bytes.reverse < 256 ^ bytes.reverse.length :=
    leNat_lt_of_bytes bytes.reverse (fun x hx => hb x (List.mem_reverse.mp hx))
  have h2 : (256 : Nat) ^ bytes.reverse.length ≤ 256 ^ 32 :=
    Nat.pow_le_pow_right (by norm_num) (by simpa using hlen)
  have : beNat bytes < 256 ^ 32 := lt_of_lt_of_le h1 h2
  unfold mkPublicKey
  rw [if_pos this]

/-- Slicing inside the first part of an appended buffer ignores the rest. -/
theorem jsSlice_append_left (l₁ l₂ : List Nat) (a b : Nat) (h : b ≤ l₁.length) :
    jsSlice (l₁ ++ l₂) a b = jsSlice l₁ a b := by
  by_cases ha : a ≤ l₁.length
  · simp only [jsSlice, List.drop_append_of_le_length ha]
    exact List.take_append_of_le_length (by simpa using by omega)
  · have hba : b - a = 0 := by omega
    simp [jsSlice, hba]

/-- Slicing past an 8-byte prefix reads the suffix shifted by 8. -/
theorem jsSlice_append_right (d rest : List Nat) (a b : Nat)
    (h : d.length = 8) :
    jsSlice (d ++ rest) (8 + a) (8 + b) = jsSlice rest a b := by
  have hdrop : (d ++ rest).drop (8 + a) = rest.drop a := by
    have h8 : 8 + a = d.length + a := by rw [h]
    rw [h8, List.drop_append]
  simp [jsSlice, hdrop, Nat.add_sub_add_left]

/-- A fixed-width little-endian encoding decodes to the encoded value
when the value fits the width. -/
theorem leNat_leBytes (n v : Nat) (h : v < 256 ^ n) :
    leNat (leBytes n v) = v := by
  induction n generalizing v with
  | zero => simp [leBytes, leNat]; omega
  | succ m ih =>
    have hdiv : v / 256 < 256 ^ m := by
      rw [Nat.div_lt_iff_lt_mul (by norm_num)]
      calc v < 256 ^ (m + 1) := h
        _ = 256 ^ m * 256 := by ring
    simp [leBytes, leNat, ih (v / 256) hdiv]
    omega

/-- leBytes always produces exactly the requested width. -/
theorem leBytes_length (n v : Nat) : (leBytes n v).length = n := by
  induction n generalizing v with
  | zero => simp [leBytes]
  | succ m ih => simp [leBytes, ih]

/-- Claim C3: for an oracle request record of at least 152 bytes,
checkRandomnessStatus classifies it as revealed exactly when the 8-byte
little-endian value at offset 144 is non-zero, otherwise as committed
exactly when the 8-byte little-endian value at offset 104 is non-zero,
and no byte outside those two fields affects the classification. -/
theorem C3_randomness_classification (data : List Nat) (h : 152 ≤ data.length) :
    (checkRandomnessStatusData data = RandomnessStatus.revealed ↔
      leNat (jsSlice data 144 152) ≠ 0) ∧
    (leNat (jsSlice data 144 152) = 0 →
      (checkRandomnessStatusData data = RandomnessStatus.committed ↔
        leNat (jsSlice data 104 112) ≠ 0)) ∧
    (∀ data' : List Nat, 152 ≤ data'.length →
      jsSlice data 104 112 = jsSlice data' 104 112 →
      jsSlice data 144 152 = jsSlice data' 144 152 →
      checkRandomnessStatusData data = checkRandomnessStatusData data') := by
  have hnot : ¬ data.length < 144 + 8 := by omega
  refine ⟨?_, ?_, ?_⟩
  · by_cases hr : leNat (jsSlice data 144 152) = 0 <;>
      simp [checkRandomnessStatusData, hnot, hr] <;>
      by_cases hs : leNat (jsSlice data 104 112) = 0 <;> simp [hs]
  · intro hr
    by_cases hs : leNat (jsSlice data 104 112) = 0 <;>
      simp [checkRandomnessStatusData, hnot, hr, hs]
  · intro data' h' e104 e144
    have hnot' : ¬ data'.length < 144 + 8 := by omega
    simp [checkRandomnessStatusData, hnot, hnot', e104, e144]

/-- Witness for C3 on concrete records: a 152-byte record with revealed
slot 1 classifies as revealed, and a record agreeing with it on the two
slot fields but differing elsewhere classifies identically. -/
theorem C3_randomness_classification_witness :
    (checkRandomnessStatusData
        (List.replicate 144 0 ++ [1, 0, 0, 0, 0, 0, 0, 0]) =
      RandomnessStatus.revealed) ∧
    (checkRandomnessStatusData
        (List.replicate 144 0 ++ [1, 0, 0, 0, 0, 0, 0, 0]) =
      checkRandomnessStatusData
        (List.replicate 104 9 ++ List.replicate 8 0 ++ List.replicate 32 9 ++
          [1, 0, 0, 0, 0, 0, 0, 0])) := by
  have h1 := C3_randomness_classification
    (List.replicate 144 0 ++ [1, 0, 0, 0, 0, 0, 0, 0]) (by decide)
  refine ⟨h1.1.mpr (by decide), ?_⟩
  exact h1.2.2 _ (by decide) (by decide) (by decide)

/-- Claim C7 counterexample: a 104-byte all-zero buffer, whose first 8
bytes differ from the Pot discriminator, is decoded by parsePotAccount
(and so by getPot) to a Pot record instead of being rejected as null. -/
theorem C7_counterexample :
    jsSlice (List.replicate 104 0) 0 8 ≠ [238, 118, 60, 175, 178, 191, 59, 58] ∧
    parsePotAccount (List.replicate 104 0) =
      some { potManager := 0, totalParticipants := 0, startTimestamp := 0,
             endTimestamp := 0, winningSlot := 0, randomnessAccount := 0 } ∧
    getPot (fun _ => some (List.replicate 104 0)) (Addr.key 1) =
      some { potManager := 0, totalParticipants := 0, startTimestamp := 0,
             endTimestamp := 0, winningSlot := 0, randomnessAccount := 0 } := by
  refine ⟨by decide, by decide, by decide⟩

/-- Claim C7 as amended: parsePotAccount never inspects the 8-byte
discriminator — decoding is invariant under replacing the first 8 bytes —
and it decodes every genuine byte buffer (of bytes below 256) to a Pot
record; discriminator-based rejection happens only in the scan-level
memcmp filters, not in the parser. -/
theorem C7_amended :
    (∀ d₁ d₂ rest : List Nat, d₁.length = 8 → d₂.length = 8 →
      parsePotAccount (d₁ ++ rest) = parsePotAccount (d₂ ++ rest)) ∧
    (∀ data : List Nat, (∀ b ∈ data, b < 256) →
      (parsePotAccount data).isSome = true) := by
  constructor
  · intro d₁ d₂ rest h₁ h₂
    have q₁ : jsSlice (d₁ ++ rest) 8 40 = jsSlice rest 0 32 := by
      simpa using jsSlice_append_right d₁ rest 0 32 h₁
    have q₂ : jsSlice (d₁ ++ rest) 40 48 = jsSlice rest 32 40 := by
      simpa using jsSlice_append_right d₁ rest 32 40 h₁
    have q₃ : jsSlice (d₁ ++ rest) 48 56 = jsSlice rest 40 48 := by
      simpa using jsSlice_append_right d₁ rest 40 48 h₁
    have q₄ : jsSlice (d₁ ++ rest) 56 64 = jsSlice rest 48 56 := by
      simpa using jsSlice_append_right d₁ rest 48 56 h₁
    have q₅ : jsSlice (d₁ ++ rest) 64 72 = jsSlice rest 56 64 := by
      simpa using jsSlice_append_right d₁ rest 56 64 h₁
    have q₆ : jsSlice (d₁ ++ rest) 72 104 = jsSlice rest 64 96 := by
      simpa using jsSlice_append_right d₁ rest 64 96 h₁
    have r₁ : jsSlice (d₂ ++ rest) 8 40 = jsSlice rest 0 32 := by
      simpa using jsSlice_append_right d₂ rest 0 32 h₂
    have r₂ : jsSlice (d₂ ++ rest) 40 48 = jsSlice rest 32 40 := by
      simpa using jsSlice_append_right d₂ rest 32 40 h₂
    have r₃ : jsSlice (d₂ ++ rest) 48 56 = jsSlice rest 40 48 := by
      simpa using jsSlice_append_right d₂ rest 40 48 h₂
    have r₄ : jsSlice (d₂ ++ rest) 56 64 = jsSlice rest 48 56 := by
      simpa using jsSlice_append_right d₂ rest 48 56 h₂
    have r₅ : jsSlice (d₂ ++ rest) 64 72 = jsSlice rest 56 64 := by
      simpa using jsSlice_append_right d₂ rest 56 64 h₂
    have r₆ : jsSlice (d₂ ++ rest) 72 104 = jsSlice rest 64 96 := by
      simpa using jsSlice_append_right d₂ rest 64 96 h₂
    simp only [parsePotAccount, q₁, q₂, q₃, q₄, q₅, q₆, r₁, r₂, r₃, r₄, r₅, r₆]
  · intro data hb
    have k₁ := mkPublicKey_eq_some (jsSlice data 8 40)
      (le_trans (jsSlice_length_le data 8 40) (by norm_num))
      (fun b h => hb b (mem_jsSlice data 8 40 b h))
    have k₂ := mkPublicKey_eq_some (jsSlice data 72 104)
      (le_trans (jsSlice_length_le data 72 104) (by norm_num))
      (fun b h => hb b (mem_jsSlice data 72 104 b h))
    simp [parsePotAccount, k₁, k₂]

/-- Witness for C7 amended at concrete inputs: replacing an all-zero
discriminator with the real Pot discriminator does not change the parse,
and a concrete 104-byte buffer parses to a record. -/
theorem C7_amended_witness :
    parsePotAccount (List.replicate 8 0 ++ List.replicate 96 3) =
      parsePotAccount ([238, 118, 60, 175, 178, 191, 59, 58] ++
        List.replicate 96 3) ∧
    (parsePotAccount (List.replicate 104 7)).isSome = true := by
  refine ⟨C7_amended.1 _ _ _ (by decide) (by decide), ?_⟩
  exact C7_amended.2 (List.replicate 104 7) (by decide)

/-- Claim C9: getWinningTicket returns a ticket only when the pot's
stored winningSlot is non-zero — whenever winningSlot is zero it returns
null regardless of the rest of the ledger state — and getPotStatus never
classifies a pot with winningSlot zero as Settled, so a winner at ticket
index 0 is never reported through these reads. -/
theorem C9_zero_sentinel :
    (∀ (st : ChainAccounts) (a : Addr) (p : Pot),
      getPot st a = some p → p.winningSlot = 0 →
      getWinningTicket st a = none) ∧
    (∀ (pot : Pot) (now : Nat), pot.winningSlot = 0 →
      getPotStatus pot now ≠ PotStatus.Settled) := by
  constructor
  · intro st a p hget hzero
    simp [getWinningTicket, hget, hzero]
  · intro pot now hzero
    by_cases hlt : now < pot.endTimestamp <;>
      by_cases hr : pot.randomnessAccount = 0 <;>
      simp [getPotStatus, hlt, hr, hzero]

/-- Witness for C9 at a concrete ledger holding one all-zero pot record:
the winning-ticket read returns null and the status is not Settled. -/
theorem C9_zero_sentinel_witness :
    getWinningTicket (fun _ => some (List.replicate 104 0)) (Addr.key 5) = none ∧
    getPotStatus { potManager := 0, totalParticipants := 0, startTimestamp := 0,
                   endTimestamp := 0, winningSlot := 0, randomnessAccount := 0 }
      1000 ≠ PotStatus.Settled := by
  constructor
  · exact C9_zero_sentinel.1 (fun _ => some (List.replicate 104 0)) (Addr.key 5)
      { potManager := 0, totalParticipants := 0, startTimestamp := 0,
        endTimestamp := 0, winningSlot := 0, randomnessAccount := 0 }
      (by decide) rfl
  · exact C9_zero_sentinel.2 _ 1000 rfl

/-- Claim C10: getAllPotManagers never returns a result for any ledger
contents — the DISCRIMINATORS table has no POT_MANAGER entry, so building
the memcmp filter from the undefined value throws a TypeError before any
account is fetched or parsed. -/
theorem C10_get_all_pot_managers_throws (accounts : List (Addr × List Nat)) :
    getAllPotManagers accounts = Except.error JsError.typeError := rfl

/-- Claim C8: the manager-name codec round-trips.  For every name of at
most 32 bytes, writing it with encodeString (4-byte little-endian length
prefix plus raw bytes) after the 137 fixed-layout bytes of a PotManager
record and decoding with parsePotManagerAccount returns the original
name. -/
theorem C8_name_roundtrip (pre name : List Nat) (hpre : pre.length = 137)
    (hb : ∀ b ∈ pre, b < 256) (hlen : name.length ≤ 32) :
    (parsePotManagerAccount (pre ++ encodeString name)).map PotManager.name =
      some name := by
  have k₁ : mkPublicKey (jsSlice (pre ++ encodeString name) 8 40) =
      some (beNat (jsSlice pre 8 40)) := by
    rw [jsSlice_append_left _ _ _ _ (by omega)]
    exact mkPublicKey_eq_some _
      (le_trans (jsSlice_length_le pre 8 40) (by norm_num))
      (fun b h => hb b (mem_jsSlice pre 8 40 b h))
  have k₂ : mkPublicKey (jsSlice (pre ++ encodeString name) 40 72) =
      some (beNat (jsSlice pre 40 72)) := by
    rw [jsSlice_append_left _ _ _ _ (by omega)]
    exact mkPublicKey_eq_some _
      (le_trans (jsSlice_length_le pre 40 72) (by norm_num))
      (fun b h => hb b (mem_jsSlice pre 40 72 b h))
  have k₃ : mkPublicKey (jsSlice (pre ++ encodeString name) 72 104) =
      some (beNat (jsSlice pre 72 104)) := by
    rw [jsSlice_append_left _ _ _ _ (by omega)]
    exact mkPublicKey_eq_some _
      (le_trans (jsSlice_length_le pre 72 104) (by norm_num))
      (fun b h => hb b (mem_jsSlice pre 72 104 b h))
  have hlen4 : (leBytes 4 name.length).length = 4 := leBytes_length 4 _
  have hdrop137 : (pre ++ encodeString name).drop 137 = encodeString name := by
    rw [← hpre]
    exact List.drop_left pre (encodeString name)
  have hslice137 : jsSlice (pre ++ encodeString name) 137 (137 + 4) =
      leBytes 4 name.length := by
    show ((pre ++ encodeString name).drop 137).take (137 + 4 - 137) = _
    rw [hdrop137]
    unfold encodeString
    have : (137 + 4 - 137 : Nat) = 4 := by norm_num
    rw [this]
    exact List.take_left' hlen4
  have htotal : (pre ++ encodeString name).length = 141 + name.length := by
    simp [encodeString, hpre, leBytes_length]
    omega
  have hread : readUInt32LE (pre ++ encodeString name) 137 = some name.length := by
    unfold readUInt32LE
    rw [if_pos (by rw [htotal]; omega)]
    rw [hslice137, leNat_leBytes 4 name.length (by norm_num; omega)]
  have hdrop141 : (pre ++ encodeString name).drop 141 = name := by
    have hd : List.drop 4 (List.drop 137 (pre ++ encodeString name)) =
        List.drop 141 (pre ++ encodeString name) := by
      rw [List.drop_drop]
    rw [← hd, hdrop137]
    unfold encodeString
    exact List.drop_left' hlen4
  have hname : jsSlice (pre ++ encodeString name) 141 (141 + name.length) =
      name := by
    show ((pre ++ encodeString name).drop 141).take (141 + name.length - 141) = _
    rw [hdrop141, Nat.add_sub_cancel_left]
    exact List.take_length name
  simp [parsePotManagerAccount, k₁, k₂, k₃, hread, hname]

/-- Witness for C8 at a concrete record: a 137-byte all-zero fixed part
followed by the encoding of the two-byte name [111, 107] decodes back to
that name. -/
theorem C8_name_roundtrip_witness :
    (parsePotManagerAccount
        (List.replicate 137 0 ++ encodeString [111, 107])).map
      PotManager.name = some [111, 107] :=
  C8_name_roundtrip (List.replicate 137 0) [111, 107] (by decide) (by decide)
    (by decide)

instance {ε α : Type} [DecidableEq ε] [DecidableEq α] :
    DecidableEq (Except ε α) := fun a b =>
  match a, b with
  | Except.error x, Except.error y =>
    if h : x = y then Decidable.isTrue (congrArg Except.error h)
    else Decidable.isFalse (fun he => h (Except.error.inj he))
  | Except.error _, Except.ok _ =>
    Decidable.isFalse (fun he => Except.noConfusion he)
  | Except.ok _, Except.error _ =>
    Decidable.isFalse (fun he => Except.noConfusion he)
  | Except.ok x, Except.ok y =>
    if h : x = y then Decidable.isTrue (congrArg Except.ok h)
    else Decidable.isFalse (fun he => h (Except.ok.inj he))

/-- Modelled from the spec: the named failure conditions of section 7
for the on-chain instructions (the Anchor program programs/open-lotto is
not part of the sources; the frontend's OpenLottoError enum lists the
deployed error names). -/
inductive ChainError where
  | endTimestampPassed
  | nameTooLong
  | accountAlreadyExists
  | potNotFound
  | potClosed
  | roundNotEnded
  | invalidRandomnessAccount
  | potNotClosed
  | potNotDrawing
  | randomnessNotResolved
  deriving DecidableEq, Repr

/-- Modelled from the spec: the mutable records owned by one PotManager —
its round duration, its timestamp pair (current-round-end,
next-round-end), its name, and the Pot and Ticket records created under
it.  Pots are identified by their end timestamp (one Pot per (manager,
end-timestamp), section 3); a ticket entry pairs the owning pot's end
timestamp with the Ticket record. -/
structure MState where
  duration : Nat
  currentEnd : Nat
  nextEnd : Nat
  name : List Nat
  pots : List Pot
  tickets : List (Nat × Ticket)
  deriving DecidableEq, Repr

/-- Modelled from the spec: the on-chain init_pot_manager instruction
(section 4.2).  Fails when the end timestamp is not strictly in the
future or the name exceeds 32 bytes; creates the manager record and two
Pots ending at endTimestamp and endTimestamp + duration, both with zero
participants, and sets the manager timestamp pair to those values.  A
zero duration would place the second Pot at the address of the first, so
the ledger rejects the second creation (address already exists),
matching the section 3 invariant current-round-end < next-round-end. -/
def initPotManagerChain (now endTimestamp potDuration : Nat)
    (managerName : List Nat) : Except ChainError MState :=
  if endTimestamp ≤ now then Except.error ChainError.endTimestampPassed
  else if 32 < managerName.length then Except.error ChainError.nameTooLong
  else if potDuration = 0 then Except.error ChainError.accountAlreadyExists
  else Except.ok
    { duration := potDuration
      currentEnd := endTimestamp
      nextEnd := endTimestamp + potDuration
      name := managerName
      pots := [
        { potManager := 0, totalParticipants := 0, startTimestamp := now,
          endTimestamp := endTimestamp, winningSlot := 0,
          randomnessAccount := 0 },
        { potManager := 0, totalParticipants := 0, startTimestamp := now,
          endTimestamp := endTimestamp + potDuration, winningSlot := 0,
          randomnessAccount := 0 }]
      tickets := [] }

/-- Modelled from the spec: AdvanceRound (section 4.2), callable by
anyone once the current Pot's end timestamp has passed.  It does not
settle the round; it rolls the window forward: the next Pot becomes
current, a new Pot is created ending at old-next-end + duration, and the
manager timestamp pair is updated.  Redundant invocations fail cleanly
because the Pot they would create already exists (section 5). -/
def advanceRound (s : MState) (now : Nat) : Except ChainError MState :=
  if now < s.currentEnd then Except.error ChainError.roundNotEnded
  else if s.pots.any (fun p => p.endTimestamp = s.nextEnd + s.duration) then
    Except.error ChainError.accountAlreadyExists
  else Except.ok
    { s with
      currentEnd := s.nextEnd
      nextEnd := s.nextEnd + s.duration
      pots := s.pots ++ [
        { potManager := 0, totalParticipants := 0, startTimestamp := now,
          endTimestamp := s.nextEnd + s.duration, winningSlot := 0,
          randomnessAccount := 0 }] }

/-- Modelled from the spec: enter_ticket (section 4.3).  Fails unless
the target Pot's derived status is Active; creates the Ticket at index
equal to the Pot's current participant count — the address the SDK
derives with deriveTicketPDA(pot, count) — and increments the count.
The payment split to Escrow and Treasury is outside the claims and
omitted here. -/
def enterTicketChain (s : MState) (potEnd participant now : Nat) :
    Except ChainError MState :=
  match s.pots.find? (fun p => p.endTimestamp = potEnd) with
  | none => Except.error ChainError.potNotFound
  | some p =>
    if getPotStatus p now ≠ PotStatus.Active then
      Except.error ChainError.potClosed
    else Except.ok
      { s with
        pots := s.pots.map (fun q =>
          if q.endTimestamp = potEnd
          then { q with totalParticipants := q.totalParticipants + 1 }
          else q)
        tickets := s.tickets ++
          [(potEnd, { participant := participant,
                      index := p.totalParticipants })] }

/-- Modelled from the spec: DrawLottery (section 4.4).  Fails unless the
Pot's derived status is Closed (round ended, no request yet) and the
randomness account is a real account (not the default key); stores the
randomness-request reference on the Pot. -/
def drawLotteryChain (s : MState) (potEnd randomnessAccount now : Nat) :
    Except ChainError MState :=
  match s.pots.find? (fun p => p.endTimestamp = potEnd) with
  | none => Except.error ChainError.potNotFound
  | some p =>
    if randomnessAccount = 0 then
      Except.error ChainError.invalidRandomnessAccount
    else if getPotStatus p now ≠ PotStatus.Closed then
      Except.error ChainError.potNotClosed
    else Except.ok
      { s with
        pots := s.pots.map (fun q =>
          if q.endTimestamp = potEnd
          then { q with randomnessAccount := randomnessAccount }
          else q) }

/-- Modelled from the spec: SettleLottery (section 4.4).  Fails unless
the Pot is Drawing and the referenced request carries a revealed value;
writes revealed mod participant-count as the winning index when the
count is positive, and leaves the sentinel untouched for an empty
round. -/
def settleLotteryChain (s : MState) (potEnd : Nat)
    (revealedValue : Option Nat) (now : Nat) : Except ChainError MState :=
  match s.pots.find? (fun p => p.endTimestamp = potEnd) with
  | none => Except.error ChainError.potNotFound
  | some p =>
    if getPotStatus p now ≠ PotStatus.Drawing then
      Except.error ChainError.potNotDrawing
    else
      match revealedValue with
      | none => Except.error ChainError.randomnessNotResolved
      | some r => Except.ok
          { s with
            pots := s.pots.map (fun q =>
              if q.endTimestamp = potEnd
              then { q with winningSlot :=
                      if q.totalParticipants = 0 then 0
                      else r % q.totalParticipants }
              else q) }

/-- Modelled from the spec: the states of one PotManager reachable
through its operations, at a caller-observed wall clock that only moves
forward. -/
inductive Reach : MState → Nat → Prop where
  | init (now endTimestamp potDuration : Nat) (managerName : List Nat)
      (s : MState) :
      initPotManagerChain now endTimestamp potDuration managerName =
        Except.ok s →
      Reach s now
  | tick (s : MState) (now later : Nat) :
      Reach s now → now ≤ later → Reach s later
  | advance (s : MState) (now : Nat) (s' : MState) :
      Reach s now → advanceRound s now = Except.ok s' → Reach s' now
  | enter (s : MState) (potEnd participant now : Nat) (s' : MState) :
      Reach s now → enterTicketChain s potEnd participant now = Except.ok s' →
      Reach s' now
  | draw (s : MState) (potEnd randomnessAccount now : Nat) (s' : MState) :
      Reach s now →
      drawLotteryChain s potEnd randomnessAccount now = Except.ok s' →
      Reach s' now
  | settle (s : MState) (potEnd : Nat) (revealedValue : Option Nat)
      (now : Nat) (s' : MState) :
      Reach s now →
      settleLotteryChain s potEnd revealedValue now = Except.ok s' →
      Reach s' now

/-- The predicate of claim C1 on one Pot: end timestamp strictly in the
future and open for entry (derived status Active, the Enter
precondition). -/
def openForEntry (p : Pot) (now : Nat) : Bool :=
  decide (now < p.endTimestamp) &&
    decide (getPotStatus p now = PotStatus.Active)

/-- How many Pots of the manager satisfy claim C1's predicate. -/
def openForEntryCount (s : MState) (now : Nat) : Nat :=
  (s.pots.filter (fun p => openForEntry p now)).length

/-- A Pot is open for entry exactly when the clock is before its end. -/
theorem openForEntry_iff (p : Pot) (now : Nat) :
    openForEntry p now = true ↔ now < p.endTimestamp := by
  by_cases h : now < p.endTimestamp <;>
    simp [openForEntry, getPotStatus, h]

/-- Mapping an end-timestamp-preserving update over the pot list keeps
every end timestamp among the original ones. -/
theorem pots_map_ends (l : List Pot) (g : Pot → Pot)
    (hg : ∀ q, (g q).endTimestamp = q.endTimestamp) :
    ∀ p ∈ l.map g, ∃ q ∈ l, p.endTimestamp = q.endTimestamp := by
  intro p hp
  obtain ⟨q, hq, rfl⟩ := List.mem_map.mp hp
  exact ⟨q, hq, hg q⟩

/-- What a successful Init implies: the preconditions held and the state
is the manager plus exactly the two freshly created Pots. -/
theorem initPotManagerChain_ok (now e d : Nat) (nm : List Nat) (s : MState)
    (h : initPotManagerChain now e d nm = Except.ok s) :
    now < e ∧ nm.length ≤ 32 ∧ 0 < d ∧
    s.duration = d ∧ s.currentEnd = e ∧ s.nextEnd = e + d ∧ s.name = nm ∧
    s.pots = [
      { potManager := 0, totalParticipants := 0, startTimestamp := now,
        endTimestamp := e, winningSlot := 0, randomnessAccount := 0 },
      { potManager := 0, totalParticipants := 0, startTimestamp := now,
        endTimestamp := e + d, winningSlot := 0, randomnessAccount := 0 }] ∧
    s.tickets = [] := by
  unfold initPotManagerChain at h
  split_ifs at h with h1 h2 h3
  simp only [Except.ok.injEq] at h
  subst h
  refine ⟨by omega, by omega, by omega, rfl, rfl, rfl, rfl, rfl, rfl⟩

/-- What a successful AdvanceRound implies: the current round had ended,
the window rolled forward, and exactly one new Pot was appended. -/
theorem advanceRound_ok (s : MState) (now : Nat) (s' : MState)
    (h : advanceRound s now = Except.ok s') :
    s.currentEnd ≤ now ∧ s'.duration = s.duration ∧
    s'.currentEnd = s.nextEnd ∧ s'.nextEnd = s.nextEnd + s.duration ∧
    s'.pots = s.pots ++ [
      { potManager := 0, totalParticipants := 0, startTimestamp := now,
        endTimestamp := s.nextEnd + s.duration, winningSlot := 0,
        randomnessAccount := 0 }] := by
  unfold advanceRound at h
  split_ifs at h with h1 h2
  simp only [Except.ok.injEq] at h
  subst h
  exact ⟨by omega, rfl, rfl, rfl, rfl⟩

/-- What a successful Enter implies: the manager fields are untouched,
the target Pot existed with derived status Active, its participant count
is incremented in place, and the new Ticket carries the old count as its
index. -/
theorem enterTicketChain_ok (s : MState) (potEnd participant now : Nat)
    (s' : MState)
    (h : enterTicketChain s potEnd participant now = Except.ok s') :
    ∃ p, s.pots.find? (fun q => q.endTimestamp = potEnd) = some p ∧
      getPotStatus p now = PotStatus.Active ∧
      s'.duration = s.duration ∧ s'.currentEnd = s.currentEnd ∧
      s'.nextEnd = s.nextEnd ∧
      s'.pots = s.pots.map (fun q =>
        if q.endTimestamp = potEnd
        then { q with totalParticipants := q.totalParticipants + 1 }
        else q) ∧
      s'.tickets = s.tickets ++
        [(potEnd, { participant := participant,
                    index := p.totalParticipants })] := by
  cases hfind : s.pots.find? (fun q => q.endTimestamp = potEnd) with
  | none => simp [enterTicketChain, hfind] at h
  | some p =>
    simp only [enterTicketChain, hfind] at h
    by_cases hst : getPotStatus p now = PotStatus.Active
    · rw [if_neg (by simp [hst])] at h
      simp only [Except.ok.injEq] at h
      subst h
      exact ⟨p, rfl, hst, rfl, rfl, rfl, rfl, rfl⟩
    · rw [if_pos (by simp [hst])] at h
      cases h

/-- What a successful DrawLottery implies for the shape of the state:
manager fields untouched and the pot list updated in place by an
end-preserving rewrite. -/
theorem drawLotteryChain_ok (s : MState) (potEnd randomnessAccount now : Nat)
    (s' : MState)
    (h : drawLotteryChain s potEnd randomnessAccount now = Except.ok s') :
    s'.duration = s.duration ∧ s'.currentEnd = s.currentEnd ∧
    s'.nextEnd = s.nextEnd ∧
    s'.pots = s.pots.map (fun q =>
      if q.endTimestamp = potEnd
      then { q with randomnessAccount := randomnessAccount }
      else q) := by
  cases hfind : s.pots.find? (fun q => q.endTimestamp = potEnd) with
  | none => simp [drawLotteryChain, hfind] at h
  | some p =>
    simp only [drawLotteryChain, hfind] at h
    by_cases h1 : randomnessAccount = 0
    · rw [if_pos h1] at h; cases h
    · rw [if_neg h1] at h
      by_cases h2 : getPotStatus p now = PotStatus.Closed
      · rw [if_neg (by simp [h2])] at h
        simp only [Except.ok.injEq] at h
        subst h
        exact ⟨rfl, rfl, rfl, rfl⟩
      · rw [if_pos (by simp [h2])] at h; cases h

/-- What a successful SettleLottery implies for the shape of the state:
manager fields untouched and the pot list updated in place by an
end-preserving rewrite. -/
theorem settleLotteryChain_ok (s : MState) (potEnd : Nat)
    (revealedValue : Option Nat) (now : Nat) (s' : MState)
    (h : settleLotteryChain s potEnd revealedValue now = Except.ok s') :
    ∃ r, s'.duration = s.duration ∧ s'.currentEnd = s.currentEnd ∧
      s'.nextEnd = s.nextEnd ∧
      s'.pots = s.pots.map (fun q =>
        if q.endTimestamp = potEnd
        then { q with winningSlot :=
                if q.totalParticipants = 0 then 0
                else r % q.totalParticipants }
        else q) := by
  cases hfind : s.pots.find? (fun q => q.endTimestamp = potEnd) with
  | none => simp [settleLotteryChain, hfind] at h
  | some p =>
    simp only [settleLotteryChain, hfind] at h
    by_cases h1 : getPotStatus p now = PotStatus.Drawing
    · rw [if_neg (by simp [h1])] at h
      cases hrv : revealedValue with
      | none => simp only [hrv] at h; cases h
      | some r =>
        simp only [hrv, Except.ok.injEq] at h
        subst h
        exact ⟨r, rfl, rfl, rfl, rfl⟩
    · rw [if_pos (by simp [h1])] at h; cases h

/-- Scheduler invariant: in every reachable state, a Pot whose end
timestamp is still in the future is the manager's current or next
round — every older Pot has already ended. -/
theorem reach_future_pots (s : MState) (now : Nat) (h : Reach s now) :
    ∀ p ∈ s.pots, now < p.endTimestamp →
      p.endTimestamp = s.currentEnd ∨ p.endTimestamp = s.nextEnd := by
  induction h with
  | init now e d nm s hinit =>
    obtain ⟨-, -, -, -, hcur, hnext, -, hpots, -⟩ :=
      initPotManagerChain_ok now e d nm s hinit
    intro p hp _
    rw [hpots] at hp
    simp only [List.mem_cons, List.not_mem_nil, or_false] at hp
    rcases hp with rfl | rfl
    · left; rw [hcur]
    · right; rw [hnext]
  | tick s now later _ hle ih =>
    intro p hp hfut
    exact ih p hp (by omega)
  | advance s now s' _ hadv ih =>
    obtain ⟨hend, -, hcur, hnext, hpots⟩ := advanceRound_ok s now s' hadv
    intro p hp hfut
    rw [hpots] at hp
    rcases List.mem_append.mp hp with hp | hp
    · rcases ih p hp hfut with hc | hn
      · omega
      · left; rw [hcur, hn]
    · right
      have hpe : p =
          { potManager := 0, totalParticipants := 0, startTimestamp := now,
            endTimestamp := s.nextEnd + s.duration, winningSlot := 0,
            randomnessAccount := 0 } :=
        List.mem_singleton.mp hp
      rw [hpe, hnext]
  | enter s potEnd participant now s' _ hent ih =>
    obtain ⟨p0, -, -, -, hcur, hnext, hpots, -⟩ :=
      enterTicketChain_ok s potEnd participant now s' hent
    intro p hp hfut
    rw [hpots] at hp
    obtain ⟨q, hq, hqe⟩ := pots_map_ends s.pots _
      (fun q => by by_cases he : q.endTimestamp = potEnd <;> simp [he]) p hp
    rw [hcur, hnext, hqe]
    exact ih q hq (by omega)
  | draw s potEnd randomnessAccount now s' _ hdraw ih =>
    obtain ⟨-, hcur, hnext, hpots⟩ :=
      drawLotteryChain_ok s potEnd randomnessAccount now s' hdraw
    intro p hp hfut
    rw [hpots] at hp
    obtain ⟨q, hq, hqe⟩ := pots_map_ends s.pots _
      (fun q => by by_cases he : q.endTimestamp = potEnd <;> simp [he]) p hp
    rw [hcur, hnext, hqe]
    exact ih q hq (by omega)
  | settle s potEnd revealedValue now s' _ hset ih =>
    obtain ⟨r, -, hcur, hnext, hpots⟩ :=
      settleLotteryChain_ok s potEnd revealedValue now s' hset
    intro p hp hfut
    rw [hpots] at hp
    obtain ⟨q, hq, hqe⟩ := pots_map_ends s.pots _
      (fun q => by by_cases he : q.endTimestamp = potEnd <;> simp [he]) p hp
    rw [hcur, hnext, hqe]
    exact ih q hq (by omega)

/-- The state produced by Init at wall-clock 1000 with end timestamp
1300 (now + 300), duration 3600 and an empty name. -/
def initStateA : MState :=
  { duration := 3600, currentEnd := 1300, nextEnd := 4900, name := [],
    pots := [
      { potManager := 0, totalParticipants := 0, startTimestamp := 1000,
        endTimestamp := 1300, winningSlot := 0, randomnessAccount := 0 },
      { potManager := 0, totalParticipants := 0, startTimestamp := 1000,
        endTimestamp := 4900, winningSlot := 0, randomnessAccount := 0 }],
    tickets := [] }

/-- Claim C1 counterexample: immediately after the successful Init at
wall-clock 1000 with end timestamp 1300 and duration 3600 — a reachable
state — two Pots of the manager, not exactly one, have end timestamps
strictly in the future and are open for entry. -/
theorem C1_counterexample :
    initPotManagerChain 1000 1300 3600 [] = Except.ok initStateA ∧
    Reach initStateA 1000 ∧
    openForEntryCount initStateA 1000 = 2 ∧
    ¬ openForEntryCount initStateA 1000 = 1 := by
  refine ⟨by decide, ?_, by decide, by decide⟩
  exact Reach.init 1000 1300 3600 [] initStateA (by decide)

/-- Claim C1 as amended: immediately after a successful Init exactly two
Pots of the manager (the current and the next round) have end timestamps
strictly in the future and are open for entry; and in every reachable
state every Pot open for entry is the manager's current or next round,
so at most two are ever open for entry at once. -/
theorem C1_amended :
    (∀ (now endTimestamp potDuration : Nat) (managerName : List Nat)
        (s : MState),
      initPotManagerChain now endTimestamp potDuration managerName =
        Except.ok s →
      openForEntryCount s now = 2) ∧
    (∀ (s : MState) (now : Nat), Reach s now →
      ∀ p ∈ s.pots, openForEntry p now = true →
        p.endTimestamp = s.currentEnd ∨ p.endTimestamp = s.nextEnd) := by
  constructor
  · intro now e d nm s h
    obtain ⟨hlt, -, hd, -, -, -, -, hpots, -⟩ :=
      initPotManagerChain_ok now e d nm s h
    have h1 : openForEntry
        { potManager := 0, totalParticipants := 0, startTimestamp := now,
          endTimestamp := e, winningSlot := 0, randomnessAccount := 0 }
        now = true :=
      (openForEntry_iff _ _).mpr (by simpa using hlt)
    have h2 : openForEntry
        { potManager := 0, totalParticipants := 0, startTimestamp := now,
          endTimestamp := e + d, winningSlot := 0, randomnessAccount := 0 }
        now = true :=
      (openForEntry_iff _ _).mpr (by simp; omega)
    simp [openForEntryCount, hpots, h1, h2]
  · intro s now h p hp hopen
    exact reach_future_pots s now h p hp ((openForEntry_iff p now).mp hopen)

/-- Witness for C1 amended at the concrete Init of initStateA: the
open-for-entry count is two and the later-ending open Pot is the
manager's next round. -/
theorem C1_amended_witness :
    openForEntryCount initStateA 1000 = 2 ∧
    (({ potManager := 0, totalParticipants := 0, startTimestamp := 1000,
        endTimestamp := 4900, winningSlot := 0,
        randomnessAccount := 0 } : Pot).endTimestamp = initStateA.currentEnd ∨
     ({ potManager := 0, totalParticipants := 0, startTimestamp := 1000,
        endTimestamp := 4900, winningSlot := 0,
        randomnessAccount := 0 } : Pot).endTimestamp = initStateA.nextEnd) := by
  constructor
  · exact C1_amended.1 1000 1300 3600 [] initStateA (by decide)
  · exact C1_amended.2 initStateA 1000
      (Reach.init 1000 1300 3600 [] initStateA (by decide)) _ (by decide)
      (by decide)

/-- enterTicket from the SDK derives the new Ticket's address from the
pot address and the caller-supplied current participant count. -/
def enterTicketAddress (pot : Addr) (potTotalParticipants : Nat) : Addr :=
  deriveTicketPDA pot potTotalParticipants

/-- Claim C4: a successful Enter on a Pot with participant count n
creates the new Ticket at sequential index n, bumps the count to n + 1
in place, and the SDK derives that Ticket's address from the pot and the
current participant count. -/
theorem C4_enter_sequential (s : MState) (potEnd participant now : Nat)
    (s' : MState) (p : Pot)
    (hfind : s.pots.find? (fun q => q.endTimestamp = potEnd) = some p)
    (h : enterTicketChain s potEnd participant now = Except.ok s') :
    s'.tickets = s.tickets ++
      [(potEnd, { participant := participant,
                  index := p.totalParticipants })] ∧
    s'.pots.find? (fun q => q.endTimestamp = potEnd) =
      some { p with totalParticipants := p.totalParticipants + 1 } ∧
    ∀ potAddr : Addr,
      enterTicketAddress potAddr p.totalParticipants =
        Addr.ticketPDA potAddr p.totalParticipants := by
  obtain ⟨p', hfind', -, -, -, -, hpots, htickets⟩ :=
    enterTicketChain_ok s potEnd participant now s' h
  rw [hfind] at hfind'
  cases hfind'
  refine ⟨htickets, ?_, fun _ => rfl⟩
  have hpe : p.endTimestamp = potEnd := by
    have := List.find?_some hfind
    simpa using this
  rw [hpots, List.find?_map]
  have hcomp : ((fun q : Pot => decide (q.endTimestamp = potEnd)) ∘
      (fun q : Pot => if q.endTimestamp = potEnd
        then { q with totalParticipants := q.totalParticipants + 1 }
        else q)) = fun q : Pot => decide (q.endTimestamp = potEnd) := by
    funext q
    by_cases he : q.endTimestamp = potEnd <;> simp [he]
  rw [hcomp, hfind]
  simp [Option.map_some, hpe]

/-- The state after one Enter (participant 7) on the current round of
initStateA. -/
def enterStateB : MState :=
  { duration := 3600, currentEnd := 1300, nextEnd := 4900, name := [],
    pots := [
      { potManager := 0, totalParticipants := 1, startTimestamp := 1000,
        endTimestamp := 1300, winningSlot := 0, randomnessAccount := 0 },
      { potManager := 0, totalParticipants := 0, startTimestamp := 1000,
        endTimestamp := 4900, winningSlot := 0, randomnessAccount := 0 }],
    tickets := [(1300, { participant := 7, index := 0 })] }

/-- The state after a second Enter (participant 8) on the same round. -/
def enterStateC : MState :=
  { duration := 3600, currentEnd := 1300, nextEnd := 4900, name := [],
    pots := [
      { potManager := 0, totalParticipants := 2, startTimestamp := 1000,
        endTimestamp := 1300, winningSlot := 0, randomnessAccount := 0 },
      { potManager := 0, totalParticipants := 0, startTimestamp := 1000,
        endTimestamp := 4900, winningSlot := 0, randomnessAccount := 0 }],
    tickets := [(1300, { participant := 7, index := 0 }),
                (1300, { participant := 8, index := 1 })] }

/-- Witness for C4, the spec's Scenario B: entering twice on a Pot with
participant count 0 creates Tickets at indices 0 and 1 and leaves the
count at 2. -/
theorem C4_enter_sequential_witness :
    (enterStateB.tickets = initStateA.tickets ++
        [(1300, { participant := 7, index := 0 })] ∧
      enterStateB.pots.find? (fun q => q.endTimestamp = 1300) =
        some { potManager := 0, totalParticipants := 1, startTimestamp := 1000,
               endTimestamp := 1300, winningSlot := 0,
               randomnessAccount := 0 }) ∧
    (enterStateC.tickets = enterStateB.tickets ++
        [(1300, { participant := 8, index := 1 })] ∧
      enterStateC.pots.find? (fun q => q.endTimestamp = 1300) =
        some { potManager := 0, totalParticipants := 2, startTimestamp := 1000,
               endTimestamp := 1300, winningSlot := 0,
               randomnessAccount := 0 }) := by
  have h1 := C4_enter_sequential initStateA 1300 7 1000 enterStateB
    { potManager := 0, totalParticipants := 0, startTimestamp := 1000,
      endTimestamp := 1300, winningSlot := 0, randomnessAccount := 0 }
    (by decide) (by decide)
  have h2 := C4_enter_sequential enterStateB 1300 8 1000 enterStateC
    { potManager := 0, totalParticipants := 1, startTimestamp := 1000,
      endTimestamp := 1300, winningSlot := 0, randomnessAccount := 0 }
    (by decide) (by decide)
  exact ⟨⟨h1.1, h1.2.1⟩, ⟨h2.1, h2.2.1⟩⟩

/-- initPotManager from the SDK: the two pot PDAs the instruction lists
for creation — firstPot at endTimestamp and nextPot at
nextEndTs = endTimestamp + potDuration. -/
def initPotManagerPotAddrs (authority : Nat) (managerName : List Nat)
    (endTimestamp potDuration : Nat) : Addr × Addr :=
  (derivePotPDA (derivePotManagerPDA authority managerName) endTimestamp,
   derivePotPDA (derivePotManagerPDA authority managerName)
     (endTimestamp + potDuration))

/-- Claim C5: a successful Init creates exactly two Pots, ending at
endTimestamp and endTimestamp + duration, both with zero participants,
and sets the manager's timestamp pair to those two values; the SDK
derives exactly those two pot addresses. -/
theorem C5_init_creates_two_pots (now endTimestamp potDuration : Nat)
    (managerName : List Nat) (s : MState)
    (h : initPotManagerChain now endTimestamp potDuration managerName =
      Except.ok s) :
    s.pots.map Pot.endTimestamp =
      [endTimestamp, endTimestamp + potDuration] ∧
    s.pots.map Pot.totalParticipants = [0, 0] ∧
    s.currentEnd = endTimestamp ∧
    s.nextEnd = endTimestamp + potDuration ∧
    ∀ authority : Nat,
      initPotManagerPotAddrs authority managerName endTimestamp potDuration =
        (Addr.potPDA (Addr.managerPDA authority managerName) endTimestamp,
         Addr.potPDA (Addr.managerPDA authority managerName)
           (endTimestamp + potDuration)) := by
  obtain ⟨-, -, -, -, hcur, hnext, -, hpots, -⟩ :=
    initPotManagerChain_ok now endTimestamp potDuration managerName s h
  exact ⟨by rw [hpots]; rfl, by rw [hpots]; rfl, hcur, hnext, fun _ => rfl⟩

/-- Witness for C5, the spec's Scenario A: Init at wall-clock 1000 with
end timestamp now + 300 = 1300 and duration 3600 creates Pots ending at
1300 and 4900 = now + 3900, and the manager timestamps equal those. -/
theorem C5_init_creates_two_pots_witness :
    initStateA.pots.map Pot.endTimestamp = [1300, 4900] ∧
    initStateA.pots.map Pot.totalParticipants = [0, 0] ∧
    initStateA.currentEnd = 1300 ∧
    initStateA.nextEnd = 4900 ∧
    initPotManagerPotAddrs 42 [] 1300 3600 =
      (Addr.potPDA (Addr.managerPDA 42 []) 1300,
       Addr.potPDA (Addr.managerPDA 42 []) 4900) := by
  have h := C5_init_creates_two_pots 1000 1300 3600 [] initStateA (by decide)
  exact ⟨h.1, h.2.1, h.2.2.1, h.2.2.2.1, h.2.2.2.2 42⟩

/-- Claim C6: Init fails whenever the end timestamp is not strictly in
the future or the name exceeds 32 bytes, and on such failure no state is
produced (no record is created). -/
theorem C6_init_validation (now endTimestamp potDuration : Nat)
    (managerName : List Nat)
    (h : endTimestamp ≤ now ∨ 32 < managerName.length) :
    (∃ err, initPotManagerChain now endTimestamp potDuration managerName =
      Except.error err) ∧
    ∀ s : MState,
      initPotManagerChain now endTimestamp potDuration managerName ≠
        Except.ok s := by
  constructor
  · unfold initPotManagerChain
    rcases h with h | h
    · exact ⟨ChainError.endTimestampPassed, by rw [if_pos h]⟩
    · by_cases h1 : endTimestamp ≤ now
      · exact ⟨ChainError.endTimestampPassed, by rw [if_pos h1]⟩
      · exact ⟨ChainError.nameTooLong, by rw [if_neg h1, if_pos h]⟩
  · intro s hok
    obtain ⟨hlt, hle, -⟩ :=
      initPotManagerChain_ok now endTimestamp potDuration managerName s hok
    omega

/-- Witness for C6 at concrete inputs: a past end timestamp fails with
EndTimestampPassed, and a 33-byte name fails with the name-length error;
neither produces a state. -/
theorem C6_init_validation_witness :
    initPotManagerChain 1000 900 3600 [] =
      Except.error ChainError.endTimestampPassed ∧
    initPotManagerChain 1000 1300 3600 (List.replicate 33 0) =
      Except.error ChainError.nameTooLong ∧
    initPotManagerChain 1000 900 3600 [] ≠ Except.ok initStateA ∧
    initPotManagerChain 1000 1300 3600 (List.replicate 33 0) ≠
      Except.ok initStateA :=
  ⟨by decide, by decide,
   (C6_init_validation 1000 900 3600 [] (Or.inl (by norm_num))).2 initStateA,
   (C6_init_validation 1000 1300 3600 (List.replicate 33 0)
     (Or.inr (by simp))).2 initStateA⟩

end OpenLotto
